import Mathlib

/-!
Verification of the GOSFS file-system engine (GeekOS project 5).

Shallow embedding of the GOSFS code: the pure index arithmetic of
GetPhysicalBlockByLogical / IsFileBlockExists / CreateFileBlock, the
bitmap allocator GetNewFreeBlock, the directory-entry operations
(AddDirectoryEntryToInode, RemoveDirEntryFromInode, FindInodeInDirectory,
CreateFirstDirectoryBlock), the read loop of GOSFS_Read, GOSFS_Seek,
the directory snapshot of GOSFS_Open_Directory / GOSFS_Read_Entry,
the buffer get/release trace of GOSFS_Mount, and the block-freeing
phase of GOSFS_Delete.

Machine integers are modelled as Nat (all the quantities involved are
non-negative in the regions exercised); the two C conversions that
matter are modelled explicitly: int-to-ulong_t with ulongOfInt (the
ulong_t local freeBlock of GetNewFreeBlock receiving the int result of
Find_First_Free_Bit, and the ulong_t return of GetNewFreeBlock itself)
and ulong_t-to-int with intOfUlong (CreateFileBlock's int freeBlock
receiving that ulong_t return).  A `<= 0` comparison on a ulong_t local
holds only for 0 and is transcribed as the corresponding Nat comparison.
The buffer cache is modelled as always succeeding: its pin, unpin and
dirty-marking operations are external collaborators whose failure paths
are not the subject of the claims.
-/

namespace GOSFS

/-! ## Disk-layout constants, from include/geekos/gosfs.h -/

/-- SECTOR_SIZE: bytes per disk sector (block-device constant). -/
def SECTOR_SIZE : Nat := 512

/-- GOSFS_SECTORS_PER_FS_BLOCK: disk sectors per file-system block. -/
def GOSFS_SECTORS_PER_FS_BLOCK : Nat := 8

/-- GOSFS_FS_BLOCK_SIZE = GOSFS_SECTORS_PER_FS_BLOCK * SECTOR_SIZE = 4096. -/
def GOSFS_FS_BLOCK_SIZE : Nat := GOSFS_SECTORS_PER_FS_BLOCK * SECTOR_SIZE

/-- sizeof(ulong_t) on the 32-bit i386 target: 4 bytes
(the spec's external-interface section fixes integers at 32 bits). -/
def sizeof_ulong_t : Nat := 4

/-- GOSFS_NUM_PTRS_PER_BLOCK = GOSFS_FS_BLOCK_SIZE / sizeof(ulong_t) = 1024. -/
def GOSFS_NUM_PTRS_PER_BLOCK : Nat := GOSFS_FS_BLOCK_SIZE / sizeof_ulong_t

/-- GOSFS_NUM_INDIRECT_PTR_PER_BLOCK (gosfs.c) — same value as
GOSFS_NUM_PTRS_PER_BLOCK. -/
def GOSFS_NUM_INDIRECT_PTR_PER_BLOCK : Nat := GOSFS_NUM_PTRS_PER_BLOCK

/-- GOSFS_NUM_DIRECT_BLOCKS: direct pointers in an inode. -/
def GOSFS_NUM_DIRECT_BLOCKS : Nat := 8

/-- GOSFS_NUM_INDIRECT_BLOCKS: singly-indirect pointers in an inode. -/
def GOSFS_NUM_INDIRECT_BLOCKS : Nat := 1

/-- GOSFS_NUM_2X_INDIRECT_BLOCKS: doubly-indirect pointers in an inode. -/
def GOSFS_NUM_2X_INDIRECT_BLOCKS : Nat := 1

/-- GOSFS_NUM_BLOCK_PTRS: length of an inode's blockList array (= 10). -/
def GOSFS_NUM_BLOCK_PTRS : Nat :=
  GOSFS_NUM_DIRECT_BLOCKS + GOSFS_NUM_INDIRECT_BLOCKS + GOSFS_NUM_2X_INDIRECT_BLOCKS

/-- GOSFS_FILENAME_MAX: maximum filename length (127). -/
def GOSFS_FILENAME_MAX : Nat := 127

/-- sizeof(struct GOSFS_Directory) = filename[128] + ulong_t type + ulong_t
inode = 136 bytes on the target. -/
def sizeof_GOSFS_Directory : Nat := (GOSFS_FILENAME_MAX + 1) + sizeof_ulong_t + sizeof_ulong_t

/-- GOSFS_DIR_ENTRIES_PER_BLOCK = GOSFS_FS_BLOCK_SIZE / sizeof(struct
GOSFS_Directory) = 30. -/
def GOSFS_DIR_ENTRIES_PER_BLOCK : Nat := GOSFS_FS_BLOCK_SIZE / sizeof_GOSFS_Directory

/-- Directory-entry type tags (gosfs.c). -/
def GOSFS_DIRTYP_THIS : Int := 1

/-- GOSFS_DIRTYP_REGULAR: tag of a regular (named child) directory entry. -/
def GOSFS_DIRTYP_REGULAR : Int := 0

/-- GOSFS_DIRTYP_FREE: tag of an unused directory entry slot. -/
def GOSFS_DIRTYP_FREE : Int := -1

/-- Inode flag bits (gosfs.h). -/
def GOSFS_DIRENTRY_USED : Nat := 1

/-- GOSFS_DIRENTRY_ISDIRECTORY flag bit. -/
def GOSFS_DIRENTRY_ISDIRECTORY : Nat := 2

/-- Value of a C cast of an int to the 32-bit ulong_t. -/
def ulongOfInt (x : Int) : Nat := (x % (2 ^ 32)).toNat

/-- Value of a C cast of a 32-bit ulong_t to the 32-bit int
(two's complement on the target). -/
def intOfUlong (x : Nat) : Int :=
  if x < 2 ^ 31 then (x : Int) else (x : Int) - 2 ^ 32

/-! ## Block-index arithmetic of GetPhysicalBlockByLogical (gosfs.c
lines 1001-1091).  The same expressions appear in IsFileBlockExists
(lines 870-968) and, shifted by the initial `blockNum++`, in
CreateFileBlock (lines 1114-1232).  `blockNum` below is the 0-based
logical block index (the parameter of GetPhysicalBlockByLogical). -/

/-- indirectPtr in the single-indirect branch:
`((blockNum+1) - (GOSFS_NUM_DIRECT_BLOCKS+1)) / GOSFS_NUM_INDIRECT_PTR_PER_BLOCK + 1`. -/
def singleIndirectPtr (blockNum : Nat) : Nat :=
  ((blockNum + 1) - (GOSFS_NUM_DIRECT_BLOCKS + 1)) / GOSFS_NUM_INDIRECT_PTR_PER_BLOCK + 1

/-- indirectPtrOffset in the single-indirect branch:
`((blockNum+1) - (GOSFS_NUM_DIRECT_BLOCKS+1)) % GOSFS_NUM_INDIRECT_PTR_PER_BLOCK`. -/
def singleIndirectPtrOffset (blockNum : Nat) : Nat :=
  ((blockNum + 1) - (GOSFS_NUM_DIRECT_BLOCKS + 1)) % GOSFS_NUM_INDIRECT_PTR_PER_BLOCK

/-- inodePtr in the single-indirect branch:
`GOSFS_NUM_DIRECT_BLOCKS + indirectPtr - 1`. -/
def singleInodePtr (blockNum : Nat) : Nat :=
  GOSFS_NUM_DIRECT_BLOCKS + singleIndirectPtr blockNum - 1

/-- indirectPtr in the double-indirect branch. -/
def doubleIndirectPtr (blockNum : Nat) : Nat :=
  ((blockNum + 1) -
      (GOSFS_NUM_DIRECT_BLOCKS + GOSFS_NUM_INDIRECT_BLOCKS * GOSFS_NUM_PTRS_PER_BLOCK + 1)) /
    (GOSFS_NUM_INDIRECT_PTR_PER_BLOCK * GOSFS_NUM_INDIRECT_PTR_PER_BLOCK) + 1

/-- indirectPtrOffset in the double-indirect branch (the offset used in the
top doubly-indirect block). -/
def doubleIndirectPtrOffset (blockNum : Nat) : Nat :=
  ((blockNum + 1) -
      (GOSFS_NUM_DIRECT_BLOCKS + GOSFS_NUM_INDIRECT_BLOCKS * GOSFS_NUM_PTRS_PER_BLOCK + 1)) /
    GOSFS_NUM_INDIRECT_PTR_PER_BLOCK

/-- indirect2xPtrOffset in the double-indirect branch (the offset used in
the middle block). -/
def doubleIndirect2xPtrOffset (blockNum : Nat) : Nat :=
  ((blockNum + 1) -
      (GOSFS_NUM_DIRECT_BLOCKS + GOSFS_NUM_INDIRECT_BLOCKS * GOSFS_NUM_PTRS_PER_BLOCK + 1)) %
    GOSFS_NUM_INDIRECT_PTR_PER_BLOCK

/-- inodePtr in the double-indirect branch:
`GOSFS_NUM_DIRECT_BLOCKS + GOSFS_NUM_INDIRECT_BLOCKS*GOSFS_NUM_PTRS_PER_BLOCK + indirectPtr - 1`. -/
def doubleInodePtr (blockNum : Nat) : Nat :=
  GOSFS_NUM_DIRECT_BLOCKS + GOSFS_NUM_INDIRECT_BLOCKS * GOSFS_NUM_PTRS_PER_BLOCK +
    doubleIndirectPtr blockNum - 1

/-! ### Spec-side index formulas (section 4.D of the specification),
kept separate from the code-side definitions above so the two can be
compared.  Here L is the logical block index, D = N_DIR, P = pointers per
indirect block. -/

/-- Modelled from the spec: single-indirect inode slot `D + (R / P)`
with `R = L - D`. -/
def specSingleSlot (L : Nat) : Nat :=
  GOSFS_NUM_DIRECT_BLOCKS + (L - GOSFS_NUM_DIRECT_BLOCKS) / GOSFS_NUM_PTRS_PER_BLOCK

/-- Modelled from the spec: single-indirect in-block offset `R % P`. -/
def specSingleOffset (L : Nat) : Nat :=
  (L - GOSFS_NUM_DIRECT_BLOCKS) % GOSFS_NUM_PTRS_PER_BLOCK

/-- Modelled from the spec: double-indirect top slot
`D + N_IND + (R / (P*P))` with `R = L - D - I1_CAP`. -/
def specDoubleTopSlot (L : Nat) : Nat :=
  GOSFS_NUM_DIRECT_BLOCKS + GOSFS_NUM_INDIRECT_BLOCKS +
    (L - GOSFS_NUM_DIRECT_BLOCKS - GOSFS_NUM_INDIRECT_BLOCKS * GOSFS_NUM_PTRS_PER_BLOCK) /
      (GOSFS_NUM_PTRS_PER_BLOCK * GOSFS_NUM_PTRS_PER_BLOCK)

/-- Modelled from the spec: double-indirect middle offset `(R / P) % P`. -/
def specDoubleMidOffset (L : Nat) : Nat :=
  ((L - GOSFS_NUM_DIRECT_BLOCKS - GOSFS_NUM_INDIRECT_BLOCKS * GOSFS_NUM_PTRS_PER_BLOCK) /
      GOSFS_NUM_PTRS_PER_BLOCK) % GOSFS_NUM_PTRS_PER_BLOCK

/-- Modelled from the spec: double-indirect leaf offset `R % P`. -/
def specDoubleLeafOffset (L : Nat) : Nat :=
  (L - GOSFS_NUM_DIRECT_BLOCKS - GOSFS_NUM_INDIRECT_BLOCKS * GOSFS_NUM_PTRS_PER_BLOCK) %
    GOSFS_NUM_PTRS_PER_BLOCK

/-! ## Mount-wide mutable state

The bitmap (superblock.bitSet), the superblock size field, and the
contents of disk blocks seen through the buffer cache.  Block contents
are modelled at ulong_t granularity: `blocks b w` is the 4-byte word at
offset `w * sizeof(ulong_t)` of block `b`, which is how every GOSFS
routine that touches indirection blocks reads and writes them; a block is
all-zero-bytes iff all of its `GOSFS_NUM_PTRS_PER_BLOCK` words are zero. -/

structure GOSFS_State where
  bitSet : Nat → Bool
  size : Nat
  blocks : Nat → Nat → Nat

/-- Set_Bit on the in-memory bitmap. -/
def setBit (st : GOSFS_State) (n : Nat) : GOSFS_State :=
  { st with bitSet := fun b => if b = n then true else st.bitSet b }

/-- Clear_Bit on the in-memory bitmap. -/
def clearBit (st : GOSFS_State) (n : Nat) : GOSFS_State :=
  { st with bitSet := fun b => if b = n then false else st.bitSet b }

/-- memset of a whole block to zero, through the cache. -/
def zeroBlock (st : GOSFS_State) (n : Nat) : GOSFS_State :=
  { st with blocks := fun b => if b = n then (fun _ => 0) else st.blocks b }

/-- Scan bits `i, i+1, ...` (fuel-bounded) for the first clear bit. -/
def findFirstClear (bits : Nat → Bool) : Nat → Nat → Option Nat
  | _, 0 => none
  | i, fuel + 1 => if bits i = false then some i else findFirstClear bits (i + 1) fuel

/-- Modelled from the spec: the bitset helper Find_First_Free_Bit is not
part of the sources under verification (bitset.c is external); the spec
describes the allocator as scanning the bitmap for the first clear bit
and failing with an out-of-space error when there is none.  We model the
helper as returning the first clear bit index, or -1 when all bits in
range are set. -/
def Find_First_Free_Bit (bits : Nat → Bool) (size : Nat) : Int :=
  match findFirstClear bits 0 size with
  | some i => (i : Int)
  | none => -1

/-- GetNewFreeBlock (gosfs.c lines 971-998).  The scan result is
assigned to the ulong_t local `freeBlock` (line 973), so the guard
`if (freeBlock <= 0)` (line 979) is an unsigned comparison that holds
only for freeBlock == 0: the -1 no-free-bit sentinel wraps to
4294967295, passes the guard, and the function then zeroes block
4294967295 through the cache, sets bitmap bit 4294967295 and returns
4294967295.  On the freeBlock == 0 path the function sets rc = -1 and
`return rc` converts it through the ulong_t return type, again to
4294967295, with the state untouched.  The cache operations are
modelled as succeeding.  (An int-typed caller such as CreateFileBlock
recovers -1 from the wrapped return via intOfUlong.) -/
def GetNewFreeBlock (st : GOSFS_State) : Nat × GOSFS_State :=
  let freeBlock := ulongOfInt (Find_First_Free_Bit st.bitSet st.size)
  if freeBlock ≤ 0 then (ulongOfInt (-1), st)
  else (freeBlock, setBit (zeroBlock st freeBlock) freeBlock)

/-- WriteIndirectBlockEntry (gosfs.c lines 1094-1111): store `freeBlock`
at word offset `offset` of block `numBlock`. -/
def writeIndirectBlockEntry (st : GOSFS_State) (numBlock offset freeBlock : Nat) : GOSFS_State :=
  { st with
    blocks := fun b =>
      if b = numBlock then (fun w => if w = offset then freeBlock else st.blocks numBlock w)
      else st.blocks b }

/-! ## CreateFileBlock (gosfs.c lines 1114-1232) -/

/-- The region decision of CreateFileBlock, taken on the 1-based value
`blockNum` (the function increments its argument before this chain of
comparisons). -/
inductive CFBRegion where
  | direct
  | single
  | double
  | tooLarge
deriving DecidableEq

/-- Branch selection of CreateFileBlock: direct for `blockNum <= 8`,
single-indirect up to `P*N_IND + 8`, double-indirect up to
`N_IND*P*P + P*N_IND + 8` (the source uses GOSFS_NUM_INDIRECT_BLOCKS,
not GOSFS_NUM_2X_INDIRECT_BLOCKS, in the double bound; both are 1),
otherwise the maximum-filesize error branch. -/
def createFileBlockRegion (blockNum : Nat) : CFBRegion :=
  if blockNum ≤ GOSFS_NUM_DIRECT_BLOCKS then .direct
  else if blockNum ≤
      GOSFS_NUM_INDIRECT_PTR_PER_BLOCK * GOSFS_NUM_INDIRECT_BLOCKS + GOSFS_NUM_DIRECT_BLOCKS then
    .single
  else if blockNum ≤
      GOSFS_NUM_INDIRECT_BLOCKS * GOSFS_NUM_PTRS_PER_BLOCK * GOSFS_NUM_PTRS_PER_BLOCK +
        GOSFS_NUM_INDIRECT_PTR_PER_BLOCK * GOSFS_NUM_INDIRECT_BLOCKS +
        GOSFS_NUM_DIRECT_BLOCKS then
    .double
  else .tooLarge

/-- Result of CreateFileBlock: the return code, the mount state, and the
inode's blockList. -/
structure CFBResult where
  rc : Int
  st : GOSFS_State
  blockList : List Nat

/-- CreateFileBlock (gosfs.c lines 1114-1232).  `L` is the 0-based logical
block number passed in; the function first increments it (`blockNum++`),
then allocates the data block, then dispatches on the region.  Note that
the allocation happens before the region check, so the maximum-filesize
branch still consumes a block; it stores nothing into the blockList.
The allocation result lands in the int local `freeBlock` (line 1117), so
its `<= 0` check sees the ulong_t return through intOfUlong and does
catch the wrapped 4294967295 failure value; the inner `phyIndBlock <= 0`
check (line 1201) is on a ulong_t local and holds only for 0.  The
double-indirect branch indexes the inode blockList at `doubleInodePtr`,
which is out of bounds of the 10-entry array; the model uses List.set /
List.getD, for which an out-of-range index is a no-op / reads 0. -/
def createFileBlock (st0 : GOSFS_State) (blockList : List Nat) (L : Nat) : CFBResult :=
  let blockNum := L + 1
  let alloc := GetNewFreeBlock st0
  if intOfUlong alloc.1 ≤ 0 then ⟨-1, alloc.2, blockList⟩
  else
    let freeBlock := alloc.1
    let st := alloc.2
    match createFileBlockRegion blockNum with
    | .direct => ⟨0, st, blockList.set (blockNum - 1) freeBlock⟩
    | .single =>
        let inodePtr := singleInodePtr L
        let indirectBlock := blockList.getD inodePtr 0
        if indirectBlock = 0 then
          let alloc2 := GetNewFreeBlock st
          let indirectBlock2 := alloc2.1
          ⟨0, writeIndirectBlockEntry alloc2.2 indirectBlock2 (singleIndirectPtrOffset L) freeBlock,
            blockList.set inodePtr indirectBlock2⟩
        else
          ⟨0, writeIndirectBlockEntry st indirectBlock (singleIndirectPtrOffset L) freeBlock,
            blockList⟩
    | .double =>
        let inodePtr := doubleInodePtr L
        let indirectBlock := blockList.getD inodePtr 0
        let step :=
          if indirectBlock = 0 then
            let alloc2 := GetNewFreeBlock st
            (alloc2.1, alloc2.2, blockList.set inodePtr alloc2.1)
          else (indirectBlock, st, blockList)
        let indirectBlock2 := step.1
        let st2 := step.2.1
        let blockList2 := step.2.2
        let phyIndBlock := st2.blocks indirectBlock2 (doubleIndirectPtrOffset L)
        if phyIndBlock = 0 then
          let alloc3 := GetNewFreeBlock st2
          if alloc3.1 ≤ 0 then ⟨-1, alloc3.2, blockList2⟩
          else
            let phyIndBlock2 := alloc3.1
            let st3 :=
              writeIndirectBlockEntry alloc3.2 indirectBlock2 (doubleIndirectPtrOffset L)
                phyIndBlock2
            ⟨0, writeIndirectBlockEntry st3 phyIndBlock2 (doubleIndirect2xPtrOffset L) freeBlock,
              blockList2⟩
        else
          ⟨0, writeIndirectBlockEntry st2 phyIndBlock (doubleIndirect2xPtrOffset L) freeBlock,
            blockList2⟩
    | .tooLarge => ⟨-1, st, blockList⟩

/-! ## GOSFS_Delete, block-freeing phase (gosfs.c lines 1915-2026)

The inode record (struct GOSFS_Dir_Entry, gosfs.h). -/

structure GOSFS_Dir_Entry where
  size : Nat
  flags : Nat
  blockList : List Nat
deriving DecidableEq

/-- FindFreeInode (gosfs.c lines 380-396): scan the inode table for the
first inode whose flags are 0; here expressed as the index into a list of
inode records. -/
def findFreeInodeIdx (inodes : List GOSFS_Dir_Entry) : Option Nat :=
  inodes.findIdx? (fun nd => nd.flags == 0)

/-- Body of the direct-block loop of GOSFS_Delete (lines 1949-1956):
clear the bitmap bit of a non-zero direct pointer. -/
def clearDirectBody (bl : List Nat) (s : GOSFS_State) (i : Nat) : GOSFS_State :=
  if bl.getD i 0 ≠ 0 then clearBit s (bl.getD i 0) else s

/-- The direct-block loop of GOSFS_Delete (lines 1949-1956). -/
def gosfsDeleteClearDirect (st : GOSFS_State) (bl : List Nat) : GOSFS_State :=
  (List.range GOSFS_NUM_DIRECT_BLOCKS).foldl (clearDirectBody bl) st

/-- Body of the per-index-block inner loop of GOSFS_Delete (lines
1969-1978 and 2005-2009): clear the bitmap bit of the non-zero pointer
stored at word `e` of block `b`. -/
def clearChildBody (b : Nat) (s : GOSFS_State) (e : Nat) : GOSFS_State :=
  if s.blocks b e ≠ 0 then clearBit s (s.blocks b e) else s

/-- The per-index-block inner loop of GOSFS_Delete: clear the bitmap bit
of every non-zero pointer stored in block `b`.  Used both for the
single-indirect block and for the doubly-indirect block — in the latter
case the pointers cleared are the middle-level index blocks, and their
own contents (the data leaves) are never visited. -/
def gosfsDeleteClearChildren (st : GOSFS_State) (b : Nat) : GOSFS_State :=
  (List.range GOSFS_NUM_INDIRECT_PTR_PER_BLOCK).foldl (clearChildBody b) st

/-- Body of the single-indirect loop of GOSFS_Delete (lines 1959-1989). -/
def clearIndirectBody (bl : List Nat) (s : GOSFS_State) (i : Nat) : GOSFS_State :=
  if bl.getD (GOSFS_NUM_DIRECT_BLOCKS + i) 0 ≠ 0 then
    clearBit (gosfsDeleteClearChildren s (bl.getD (GOSFS_NUM_DIRECT_BLOCKS + i) 0))
      (bl.getD (GOSFS_NUM_DIRECT_BLOCKS + i) 0)
  else s

/-- The single-indirect loop of GOSFS_Delete (lines 1959-1989). -/
def gosfsDeleteClearIndirect (st : GOSFS_State) (bl : List Nat) : GOSFS_State :=
  (List.range GOSFS_NUM_INDIRECT_BLOCKS).foldl (clearIndirectBody bl) st

/-- Body of the double-indirect loop of GOSFS_Delete (lines 1992-2018). -/
def clear2xIndirectBody (bl : List Nat) (s : GOSFS_State) (i : Nat) : GOSFS_State :=
  if bl.getD (GOSFS_NUM_DIRECT_BLOCKS + GOSFS_NUM_INDIRECT_BLOCKS + i) 0 ≠ 0 then
    clearBit
      (gosfsDeleteClearChildren s
        (bl.getD (GOSFS_NUM_DIRECT_BLOCKS + GOSFS_NUM_INDIRECT_BLOCKS + i) 0))
      (bl.getD (GOSFS_NUM_DIRECT_BLOCKS + GOSFS_NUM_INDIRECT_BLOCKS + i) 0)
  else s

/-- The double-indirect loop of GOSFS_Delete (lines 1992-2018): it frees
the pointers stored in the top doubly-indirect block (the middle index
blocks) and the top block itself, one level only. -/
def gosfsDeleteClear2xIndirect (st : GOSFS_State) (bl : List Nat) : GOSFS_State :=
  (List.range GOSFS_NUM_2X_INDIRECT_BLOCKS).foldl (clear2xIndirectBody bl) st

/-- The block-freeing phase of GOSFS_Delete (lines 1949-2018) together
with its effect on the inode record being deleted: the three loops above
run in order, and no statement of GOSFS_Delete ever writes the inode's
flags, size or blockList, so the inode record is returned unchanged. -/
def gosfsDeleteFreeBlocks (st : GOSFS_State) (pInode : GOSFS_Dir_Entry) :
    GOSFS_State × GOSFS_Dir_Entry :=
  let st1 := gosfsDeleteClearDirect st pInode.blockList
  let st2 := gosfsDeleteClearIndirect st1 pInode.blockList
  let st3 := gosfsDeleteClear2xIndirect st2 pInode.blockList
  (st3, pInode)

/-! ## GOSFS_Read (gosfs.c lines 1332-1414)

The byte-count loop of GOSFS_Read, under the assumptions of claim C3:
the file was opened with O_READ and every logical block in the covered
range resolves to an allocated physical block (so no error exit runs).
`offset` is the file position at entry (the local `offset`), `endPos`
the handle's endPos, `numBytes` the requested count. -/

def gosfsReadGo (offset endPos numBytes startBlock : Nat) : Nat → Nat → Nat → Nat
  | 0, _, bytesRead => bytesRead
  | fuel + 1, i, bytesRead =>
      let readFrom := if i = startBlock then offset % GOSFS_FS_BLOCK_SIZE else 0
      let readNum0 := GOSFS_FS_BLOCK_SIZE - readFrom
      let readNum1 := if bytesRead + readNum0 > numBytes then numBytes - bytesRead else readNum0
      let readNum2 :=
        if readNum1 + bytesRead + offset > endPos then endPos - offset - bytesRead else readNum1
      gosfsReadGo offset endPos numBytes startBlock fuel (i + 1) (bytesRead + readNum2)

/-- GOSFS_Read: returns (bytesRead, final filePos).  When
`filePos >= endPos` the function returns 0 having left filePos alone;
otherwise it iterates the blocks `startBlock..endBlock` accumulating
`bytesRead`, and then executes `file->filePos = file->filePos + numBytes`
(line 1406) — the cursor advances by the requested count, not by the
bytes read. -/
def gosfsRead (offset endPos numBytes : Nat) : Nat × Nat :=
  let startBlock := offset / GOSFS_FS_BLOCK_SIZE
  let endBlock := (offset + numBytes - 1) / GOSFS_FS_BLOCK_SIZE
  if offset ≥ endPos then (0, offset)
  else
    (gosfsReadGo offset endPos numBytes startBlock (endBlock + 1 - startBlock) startBlock 0,
      offset + numBytes)

/-! ## GOSFS_Seek (gosfs.c lines 1546-1552) -/

/-- The open-file record fields GOSFS_Seek can reach through its
parameters (struct File: filePos, endPos, mode). -/
structure File where
  filePos : Nat
  endPos : Nat
  mode : Nat
deriving DecidableEq

/-- GOSFS_Seek: `file->filePos = pos; return 0;` — the whole body. -/
def GOSFS_Seek (file : File) (pos : Nat) : Int × File :=
  (0, { file with filePos := pos })

/-! ## Directory entries and directory data blocks

A struct GOSFS_Directory record (gosfs.c lines 222-227). -/

structure GOSFS_Directory where
  filename : String
  dtype : Int
  inode : Nat
deriving DecidableEq

/-- The FREE record written by RemoveDirEntryFromInode and
CreateNextDirectoryBlock: zero inode, empty filename, type FREE. -/
def gosfsFreeEntry : GOSFS_Directory :=
  { filename := "", dtype := GOSFS_DIRTYP_FREE, inode := 0 }

/-- Contribution of one entry to a directory's non-FREE entry count. -/
def entryCount (e : GOSFS_Directory) : Nat :=
  if e.dtype ≠ GOSFS_DIRTYP_FREE then 1 else 0

/-- Number of non-FREE entries in one directory data block. -/
def countNonFreeBlock : List GOSFS_Directory → Nat
  | [] => 0
  | e :: es => entryCount e + countNonFreeBlock es

/-- A directory inode together with the contents of its direct data
blocks: the inode's size field, and for each of the
GOSFS_NUM_DIRECT_BLOCKS direct slots either `none` (blockList entry 0,
no data block) or the block's list of GOSFS_DIR_ENTRIES_PER_BLOCK
directory entries.  This is the state that AddDirectoryEntryToInode,
RemoveDirEntryFromInode, FindInodeInDirectory and GOSFS_Open_Directory
read and write; the buffer cache and the bitmap bookkeeping for a newly
allocated directory block are external to this view and modelled as
succeeding. -/
structure DirInode where
  size : Nat
  blocks : List (Option (List GOSFS_Directory))
deriving DecidableEq

/-- Number of non-FREE entries over a list of direct data blocks. -/
def countNonFreeBlocks : List (Option (List GOSFS_Directory)) → Nat
  | [] => 0
  | none :: bs => countNonFreeBlocks bs
  | some es :: bs => countNonFreeBlock es + countNonFreeBlocks bs

/-- Number of non-FREE entries stored in a directory inode's blocks. -/
def countNonFreeInode (d : DirInode) : Nat := countNonFreeBlocks d.blocks

/-- Inner scan of AddDirectoryEntryToInode's first loop (lines 567-585):
place `e` in the first slot whose type is FREE. -/
def placeInBlock (e : GOSFS_Directory) : List GOSFS_Directory → Option (List GOSFS_Directory)
  | [] => none
  | x :: xs =>
      if x.dtype = GOSFS_DIRTYP_FREE then some (e :: xs)
      else
        match placeInBlock e xs with
        | some xs2 => some (x :: xs2)
        | none => none

/-- First loop of AddDirectoryEntryToInode (lines 555-596): walk the
direct blocks in order, skipping empty slots, and place the entry in the
first block that has a FREE slot. -/
def addLoop1 (e : GOSFS_Directory) :
    List (Option (List GOSFS_Directory)) → Option (List (Option (List GOSFS_Directory)))
  | [] => none
  | none :: bs =>
      match addLoop1 e bs with
      | some bs2 => some (none :: bs2)
      | none => none
  | some es :: bs =>
      match placeInBlock e es with
      | some es2 => some (some es2 :: bs)
      | none =>
          match addLoop1 e bs with
          | some bs2 => some (some es :: bs2)
          | none => none

/-- The fresh data block built by CreateNextDirectoryBlock (lines
472-487, all entries FREE) after the entry is copied to index 0 (line
622). -/
def gosfsNewDirBlockWith (e : GOSFS_Directory) : List GOSFS_Directory :=
  e :: List.replicate (GOSFS_DIR_ENTRIES_PER_BLOCK - 1) gosfsFreeEntry

/-- Second loop of AddDirectoryEntryToInode (lines 599-638): find the
first zero direct slot, allocate and initialize a fresh block there with
the entry at index 0.  The block allocation (Find_First_Free_Bit /
Set_Bit on the bitmap) is modelled as succeeding. -/
def addLoop2 (e : GOSFS_Directory) :
    List (Option (List GOSFS_Directory)) → Option (List (Option (List GOSFS_Directory)))
  | [] => none
  | none :: bs => some (some (gosfsNewDirBlockWith e) :: bs)
  | some es :: bs =>
      match addLoop2 e bs with
      | some bs2 => some (some es :: bs2)
      | none => none

/-- AddDirectoryEntryToInode (gosfs.c lines 543-654): place the entry in
an existing FREE slot, else in a fresh block in the first zero direct
slot; on success the parent's size is incremented; with no FREE slot and
no zero direct slot the operation fails (ENOSPACE) and changes nothing. -/
def addDirectoryEntryToInode (d : DirInode) (e : GOSFS_Directory) : Option DirInode :=
  match addLoop1 e d.blocks with
  | some bs2 => some { size := d.size + 1, blocks := bs2 }
  | none =>
      match addLoop2 e d.blocks with
      | some bs2 => some { size := d.size + 1, blocks := bs2 }
      | none => none

/-- Inner scan of RemoveDirEntryFromInode (lines 508-525): overwrite the
first entry whose inode field equals `t` with the FREE record. -/
def removeFromBlock (t : Nat) : List GOSFS_Directory → Option (List GOSFS_Directory)
  | [] => none
  | x :: xs =>
      if x.inode = t then some (gosfsFreeEntry :: xs)
      else
        match removeFromBlock t xs with
        | some xs2 => some (x :: xs2)
        | none => none

/-- Block loop of RemoveDirEntryFromInode (lines 500-530). -/
def removeLoop (t : Nat) :
    List (Option (List GOSFS_Directory)) → Option (List (Option (List GOSFS_Directory)))
  | [] => none
  | none :: bs =>
      match removeLoop t bs with
      | some bs2 => some (none :: bs2)
      | none => none
  | some es :: bs =>
      match removeFromBlock t es with
      | some es2 => some (some es2 :: bs)
      | none =>
          match removeLoop t bs with
          | some bs2 => some (some es :: bs2)
          | none => none

/-- RemoveDirEntryFromInode (gosfs.c lines 490-539): replace the first
matching entry with the FREE record and decrement the parent's size
(guarded by `size != 0`, line 521); when no entry matches, nothing
changes. -/
def removeDirEntryFromInode (d : DirInode) (t : Nat) : DirInode :=
  match removeLoop t d.blocks with
  | some bs2 => { size := if d.size = 0 then d.size else d.size - 1, blocks := bs2 }
  | none => d

/-- Helper predicate for the removal invariant: no FREE entry of the
block carries the inode number `t` (so the first entry RemoveDirEntryFromInode
matches on is a live one).  FREE entries are always written with inode 0,
so this holds in every state the code constructs whenever `t ≠ 0`. -/
def blockEntriesOKb (t : Nat) : Option (List GOSFS_Directory) → Bool
  | none => true
  | some es => es.all (fun x => !(x.inode == t) || !(x.dtype == GOSFS_DIRTYP_FREE))

/-- The first directory block written by CreateFirstDirectoryBlock
(gosfs.c lines 1235-1261): entry 0 is the THIS self-reference, the
remaining entries are FREE. -/
def createFirstDirectoryBlock (thisInode : Nat) (name : String) : List GOSFS_Directory :=
  { filename := name, dtype := GOSFS_DIRTYP_THIS, inode := thisInode } ::
    List.replicate (GOSFS_DIR_ENTRIES_PER_BLOCK - 1) gosfsFreeEntry

/-- The root directory inode as GOSFS_Format initializes it (lines
2138-2145): size 1, blockList[0] pointing at a CreateFirstDirectoryBlock
block named "/", remaining direct slots zero. -/
def gosfsFormatRootInode : DirInode :=
  { size := 1,
    blocks :=
      some (createFirstDirectoryBlock 0 "/") ::
        List.replicate (GOSFS_NUM_DIRECT_BLOCKS - 1) none }

/-- The directory inode built by GOSFS_Create_Directory for the new
directory (lines 1797-1815): size 1, flags ISDIRECTORY|USED, blockList[0]
pointing at a CreateFirstDirectoryBlock block. -/
def gosfsMkdirNewInode (ino : Nat) (name : String) : DirInode :=
  { size := 1,
    blocks :=
      some (createFirstDirectoryBlock ino name) ::
        List.replicate (GOSFS_NUM_DIRECT_BLOCKS - 1) none }

/-- Inner scan of FindInodeInDirectory (lines 695-708): first non-FREE
entry whose filename equals `name` (strcmp byte equality). -/
def findInDirBlock (name : String) : List GOSFS_Directory → Option Nat
  | [] => none
  | x :: xs =>
      if x.dtype ≠ GOSFS_DIRTYP_FREE ∧ x.filename = name then some x.inode
      else findInDirBlock name xs

/-- Block loop of FindInodeInDirectory (lines 686-712). -/
def findDirLoop (name : String) : List (Option (List GOSFS_Directory)) → Option Nat
  | [] => none
  | none :: bs => findDirLoop name bs
  | some es :: bs =>
      match findInDirBlock name es with
      | some i => some i
      | none => findDirLoop name bs

/-- FindInodeInDirectory (gosfs.c lines 672-727). -/
def findInodeInDirectory (d : DirInode) (name : String) : Option Nat :=
  findDirLoop name d.blocks

/-- The directory-entry insertion performed by GOSFS_Create_Directory
(lines 1776-1781): the function calls FindInodeInDirectory to check
whether the target name already exists, but never inspects the result;
it unconditionally builds a REGULAR entry for the new inode and inserts
it into the parent. -/
def gosfsCreateDirectoryAddEntry (parent : DirInode) (filename : String) (freeInode : Nat) :
    Option DirInode :=
  addDirectoryEntryToInode parent
    { filename := filename, dtype := GOSFS_DIRTYP_REGULAR, inode := freeInode }

/-- Number of non-FREE entries carrying a given filename in one block. -/
def countNamedBlock (name : String) : List GOSFS_Directory → Nat
  | [] => 0
  | x :: xs =>
      (if x.dtype ≠ GOSFS_DIRTYP_FREE ∧ x.filename = name then 1 else 0) +
        countNamedBlock name xs

/-- Number of non-FREE entries carrying a given filename in a directory. -/
def countNamed (d : DirInode) (name : String) : Nat :=
  (d.blocks.map (fun ob => match ob with | none => 0 | some es => countNamedBlock name es)).sum

/-! ## GOSFS_Open_Directory and GOSFS_Read_Entry (gosfs.c lines
1832-1909 and 1625-1659) -/

/-- The snapshot GOSFS_Open_Directory copies into the malloc'd dirEntries
array: all non-FREE entries, in direct-block order and in-block order
(lines 1876-1898). -/
def gosfsDirSnapshotBlocks : List (Option (List GOSFS_Directory)) → List GOSFS_Directory
  | [] => []
  | none :: bs => gosfsDirSnapshotBlocks bs
  | some es :: bs =>
      es.filter (fun x => decide (x.dtype ≠ GOSFS_DIRTYP_FREE)) ++ gosfsDirSnapshotBlocks bs

/-- Snapshot of a directory as produced by GOSFS_Open_Directory; the
open directory handle gets filePos 0 and endPos = inode->size. -/
def gosfsOpenDirectorySnapshot (d : DirInode) : List GOSFS_Directory :=
  gosfsDirSnapshotBlocks d.blocks

/-- GOSFS_Read_Entry: with `filePos >= endPos` it reports
VFS_NO_MORE_DIR_ENTRIES (`none` here); otherwise it copies the snapshot
record at index `offset = filePos + 1` (lines 1629 and 1637) and
increments filePos.  The inner Option is the record read: `none` means
the index is past the end of the snapshot buffer, i.e. the C code reads
unallocated memory after the malloc'd array. -/
def gosfsReadEntry (snapshot : List GOSFS_Directory) (filePos endPos : Nat) :
    Option (Option GOSFS_Directory × Nat) :=
  if filePos ≥ endPos then none
  else some (snapshot.get? (filePos + 1), filePos + 1)

/-! ## GOSFS_Mount pinned-buffer trace (gosfs.c lines 2197-2279) -/

/-- One buffer-cache acquisition or release, by block number. -/
inductive BufEvent where
  | get (b : Nat)
  | release (b : Nat)
deriving DecidableEq

/-- Predicate picking out acquisitions of block `b`. -/
def isGetOf (b : Nat) : BufEvent → Bool
  | BufEvent.get b2 => b2 == b
  | _ => false

/-- Predicate picking out releases of block `b`. -/
def isReleaseOf (b : Nat) : BufEvent → Bool
  | BufEvent.release b2 => b2 == b
  | _ => false

/-- The scoped-acquisition contract: every pinned block is released as
often as it was pinned. -/
def bufBalanced (t : List BufEvent) : Prop :=
  ∀ b, t.countP (isGetOf b) = t.countP (isReleaseOf b)

/-- The sequence of Get_FS_Buffer / Release_FS_Buffer calls GOSFS_Mount
performs, by superblock magic validity.  The code pins block 0 (line
2210); on magic mismatch it jumps to `finish`, which returns without
releasing (lines 2214-2219 and 2277-2278).  On the success path it
releases block 0 and then pins and releases each of the `numBlocks`
superblock blocks in the copy loop (lines 2251-2274). -/
def gosfsMountEvents (magicOk : Bool) (numBlocks : Nat) : List BufEvent × Int :=
  if magicOk then
    (BufEvent.get 0 :: BufEvent.release 0 ::
        (List.range numBlocks).foldr
          (fun i acc => BufEvent.get i :: BufEvent.release i :: acc) [],
      0)
  else ([BufEvent.get 0], -1)

/-! ## Concrete states used by the closed theorems and witnesses -/

/-- A small mount state: blocks 0-2 allocated (superblock region), 16
blocks total, all block contents zero. -/
def c2DemoState : GOSFS_State :=
  { bitSet := fun b => decide (b < 3), size := 16, blocks := fun _ _ => 0 }

/-- An all-zero 10-entry inode blockList. -/
def c2DemoBlockList : List Nat := List.replicate GOSFS_NUM_BLOCK_PTRS 0

/-- Mount state for the delete scenario: block 7 is a direct data block,
block 20 a doubly-indirect top block whose word 0 names the middle index
block 21, whose word 0 names the data leaf 22; bits 7, 20, 21, 22 set. -/
def c4DemoState : GOSFS_State :=
  { bitSet := fun b => decide (b = 7 ∨ b = 20 ∨ b = 21 ∨ b = 22),
    size := 64,
    blocks := fun b w =>
      if b = 20 ∧ w = 0 then 21 else if b = 21 ∧ w = 0 then 22 else 0 }

/-- The inode being deleted: a USED regular file with direct block 7 and
doubly-indirect top block 20. -/
def c4DemoInode : GOSFS_Dir_Entry :=
  { size := 5000, flags := GOSFS_DIRENTRY_USED,
    blockList := [7, 0, 0, 0, 0, 0, 0, 0, 0, 20] }

/-- Allocator demo state: bits 0-2 set, 8 blocks, nonzero block bytes. -/
def c5DemoState : GOSFS_State :=
  { bitSet := fun b => decide (b < 3), size := 8, blocks := fun _ _ => 7 }

/-- Allocator demo state with no clear bit in range: every bit below
size = 8 is set (and nothing else), nonzero block bytes. -/
def c5FullState : GOSFS_State :=
  { bitSet := fun b => decide (b < 8), size := 8, blocks := fun _ _ => 7 }

/-- A REGULAR entry named "a" referring to inode 1. -/
def c6DemoEntry : GOSFS_Directory :=
  { filename := "a", dtype := GOSFS_DIRTYP_REGULAR, inode := 1 }

/-- The root directory after inserting `c6DemoEntry`. -/
def c6DemoDirAfter : DirInode :=
  { size := 2,
    blocks :=
      some ({ filename := "/", dtype := GOSFS_DIRTYP_THIS, inode := 0 } ::
          c6DemoEntry :: List.replicate 28 gosfsFreeEntry) ::
        List.replicate 7 none }

/-- A parent directory that already holds a REGULAR child named "a"
(inode 1) besides its THIS entry. -/
def c7DemoParent : DirInode :=
  { size := 2,
    blocks :=
      some ({ filename := "/", dtype := GOSFS_DIRTYP_THIS, inode := 0 } ::
          { filename := "a", dtype := GOSFS_DIRTYP_REGULAR, inode := 1 } ::
          List.replicate 28 gosfsFreeEntry) ::
        List.replicate 7 none }

/-- `c7DemoParent` after GOSFS_Create_Directory inserts a second entry
named "a" for the freshly allocated inode 2. -/
def c7DemoParentAfter : DirInode :=
  { size := 3,
    blocks :=
      some ({ filename := "/", dtype := GOSFS_DIRTYP_THIS, inode := 0 } ::
          { filename := "a", dtype := GOSFS_DIRTYP_REGULAR, inode := 1 } ::
          { filename := "a", dtype := GOSFS_DIRTYP_REGULAR, inode := 2 } ::
          List.replicate 27 gosfsFreeEntry) ::
        List.replicate 7 none }

/-- The THIS self-reference of the directory opened in the read-entry
scenario. -/
def c8DemoThis : GOSFS_Directory :=
  { filename := "d", dtype := GOSFS_DIRTYP_THIS, inode := 5 }

/-- The single REGULAR child of the directory opened in the read-entry
scenario. -/
def c8DemoReg : GOSFS_Directory :=
  { filename := "b", dtype := GOSFS_DIRTYP_REGULAR, inode := 6 }

/-- A directory with exactly two non-FREE entries (its THIS entry and
one REGULAR child), size 2. -/
def c8DemoDir : DirInode :=
  { size := 2,
    blocks :=
      some (c8DemoThis :: c8DemoReg :: List.replicate 28 gosfsFreeEntry) ::
        List.replicate 7 none }

/-! ## Helper lemmas: bitmap primitives -/

theorem clearBit_blocks (s : GOSFS_State) (n : Nat) : (clearBit s n).blocks = s.blocks := rfl

theorem clearBit_bitSet_ne (s : GOSFS_State) (n b : Nat) (h : b ≠ n) :
    (clearBit s n).bitSet b = s.bitSet b := by
  simp [clearBit, h]

theorem clearBit_bitSet_self (s : GOSFS_State) (n : Nat) : (clearBit s n).bitSet n = false := by
  simp [clearBit]

/-! ## Helper lemmas: the block-freeing folds of GOSFS_Delete -/

theorem clearChildBody_blocks (b : Nat) (s : GOSFS_State) (e : Nat) :
    (clearChildBody b s e).blocks = s.blocks := by
  unfold clearChildBody
  split <;> rfl

theorem foldl_clearChildBody_blocks (b : Nat) :
    ∀ (l : List Nat) (s : GOSFS_State), (l.foldl (clearChildBody b) s).blocks = s.blocks := by
  intro l
  induction l with
  | nil => intro s; rfl
  | cons x xs ih =>
      intro s
      rw [List.foldl_cons, ih, clearChildBody_blocks]

theorem foldl_clearChildBody_false (b n : Nat) :
    ∀ (l : List Nat) (s : GOSFS_State), s.bitSet n = false →
      (l.foldl (clearChildBody b) s).bitSet n = false := by
  intro l
  induction l with
  | nil => intro s h; exact h
  | cons x xs ih =>
      intro s h
      rw [List.foldl_cons]
      apply ih
      unfold clearChildBody
      split
      · by_cases hn : n = s.blocks b x
        · rw [hn]; exact clearBit_bitSet_self s (s.blocks b x)
        · rw [clearBit_bitSet_ne s _ n hn]; exact h
      · exact h

theorem foldl_clearChildBody_preserve (b n : Nat) :
    ∀ (l : List Nat) (s : GOSFS_State), (∀ e, s.blocks b e ≠ n) →
      (l.foldl (clearChildBody b) s).bitSet n = s.bitSet n := by
  intro l
  induction l with
  | nil => intro s _; rfl
  | cons x xs ih =>
      intro s h
      rw [List.foldl_cons]
      have hblocks : (clearChildBody b s x).blocks = s.blocks := clearChildBody_blocks b s x
      have h2 : ∀ e, (clearChildBody b s x).blocks b e ≠ n := by
        intro e; rw [hblocks]; exact h e
      rw [ih (clearChildBody b s x) h2]
      unfold clearChildBody
      split
      · exact clearBit_bitSet_ne s _ n (fun hc => h x hc.symm)
      · rfl

theorem foldl_clearChildBody_hit (b n : Nat) (hn : n ≠ 0) :
    ∀ (l : List Nat) (s : GOSFS_State), (∃ e ∈ l, s.blocks b e = n) →
      (l.foldl (clearChildBody b) s).bitSet n = false := by
  intro l
  induction l with
  | nil => intro s h; exact absurd h (by simp)
  | cons x xs ih =>
      intro s h
      rw [List.foldl_cons]
      by_cases hx : s.blocks b x = n
      · apply foldl_clearChildBody_false
        unfold clearChildBody
        rw [hx, if_pos hn]
        exact clearBit_bitSet_self s n
      · obtain ⟨e, he, heq⟩ := h
        rcases List.mem_cons.mp he with h1 | h1
        · exact absurd (h1 ▸ heq) hx
        · apply ih
          refine ⟨e, h1, ?_⟩
          rw [clearChildBody_blocks]
          exact heq

theorem clearDirectBody_blocks (bl : List Nat) (s : GOSFS_State) (i : Nat) :
    (clearDirectBody bl s i).blocks = s.blocks := by
  unfold clearDirectBody
  split <;> rfl

theorem foldl_clearDirectBody_blocks (bl : List Nat) :
    ∀ (l : List Nat) (s : GOSFS_State), (l.foldl (clearDirectBody bl) s).blocks = s.blocks := by
  intro l
  induction l with
  | nil => intro s; rfl
  | cons x xs ih =>
      intro s
      rw [List.foldl_cons, ih, clearDirectBody_blocks]

theorem foldl_clearDirectBody_preserve (bl : List Nat) (n : Nat) :
    ∀ (l : List Nat) (s : GOSFS_State), (∀ i ∈ l, bl.getD i 0 ≠ n) →
      (l.foldl (clearDirectBody bl) s).bitSet n = s.bitSet n := by
  intro l
  induction l with
  | nil => intro s _; rfl
  | cons x xs ih =>
      intro s h
      rw [List.foldl_cons, ih _ (fun i hi => h i (List.mem_cons_of_mem x hi))]
      unfold clearDirectBody
      split
      · exact clearBit_bitSet_ne s _ n (fun hc => h x (List.mem_cons_self x xs) hc.symm)
      · rfl

theorem foldl_clearDirectBody_false (bl : List Nat) (n : Nat) :
    ∀ (l : List Nat) (s : GOSFS_State), s.bitSet n = false →
      (l.foldl (clearDirectBody bl) s).bitSet n = false := by
  intro l
  induction l with
  | nil => intro s h; exact h
  | cons x xs ih =>
      intro s h
      rw [List.foldl_cons]
      apply ih
      unfold clearDirectBody
      split
      · by_cases hn : n = bl.getD x 0
        · rw [hn]; exact clearBit_bitSet_self s _
        · rw [clearBit_bitSet_ne s _ n hn]; exact h
      · exact h

theorem foldl_clearDirectBody_hit (bl : List Nat) (n : Nat) (hn : n ≠ 0) :
    ∀ (l : List Nat) (s : GOSFS_State), (∃ i ∈ l, bl.getD i 0 = n) →
      (l.foldl (clearDirectBody bl) s).bitSet n = false := by
  intro l
  induction l with
  | nil => intro s h; exact absurd h (by simp)
  | cons x xs ih =>
      intro s h
      rw [List.foldl_cons]
      by_cases hx : bl.getD x 0 = n
      · apply foldl_clearDirectBody_false
        unfold clearDirectBody
        rw [hx, if_pos hn]
        exact clearBit_bitSet_self s n
      · obtain ⟨i, hi, heq⟩ := h
        rcases List.mem_cons.mp hi with h1 | h1
        · exact absurd (h1 ▸ heq) hx
        · exact ih (clearDirectBody bl s x) ⟨i, h1, heq⟩

theorem clearChildren_eq (st : GOSFS_State) (b : Nat) :
    gosfsDeleteClearChildren st b =
      List.foldl (clearChildBody b) st (List.range GOSFS_NUM_INDIRECT_PTR_PER_BLOCK) := rfl

theorem clearDirect_eq (st : GOSFS_State) (bl : List Nat) :
    gosfsDeleteClearDirect st bl =
      List.foldl (clearDirectBody bl) st (List.range GOSFS_NUM_DIRECT_BLOCKS) := rfl

theorem clearChildren_false (st : GOSFS_State) (b n : Nat) (h : st.bitSet n = false) :
    (gosfsDeleteClearChildren st b).bitSet n = false := by
  rw [clearChildren_eq]
  exact foldl_clearChildBody_false b n _ st h

theorem clearChildren_preserve (st : GOSFS_State) (b n : Nat)
    (h : ∀ e, st.blocks b e ≠ n) :
    (gosfsDeleteClearChildren st b).bitSet n = st.bitSet n := by
  rw [clearChildren_eq]
  exact foldl_clearChildBody_preserve b n _ st h

theorem clearChildren_hit (st : GOSFS_State) (b n : Nat) (hn : n ≠ 0) (e : Nat)
    (helt : e < GOSFS_NUM_INDIRECT_PTR_PER_BLOCK) (he : st.blocks b e = n) :
    (gosfsDeleteClearChildren st b).bitSet n = false := by
  rw [clearChildren_eq]
  exact foldl_clearChildBody_hit b n hn _ st ⟨e, List.mem_range.mpr helt, he⟩

/-! ## Helper lemmas: the first-free-bit scan and GetNewFreeBlock -/

theorem findFirstClear_some (bits : Nat → Bool) :
    ∀ (fuel i j : Nat), findFirstClear bits i fuel = some j →
      bits j = false ∧ i ≤ j ∧ j < i + fuel ∧ ∀ m, i ≤ m → m < j → bits m = true := by
  intro fuel
  induction fuel with
  | zero => intro i j h; exact absurd h (by simp [findFirstClear])
  | succ fuel ih =>
      intro i j h
      rw [findFirstClear] at h
      by_cases hb : bits i = false
      · rw [if_pos hb] at h
        injection h with h
        subst h
        exact ⟨hb, Nat.le_refl i, by omega, fun m h1 h2 => absurd h2 (by omega)⟩
      · rw [if_neg hb] at h
        obtain ⟨hj, h1, h2, h3⟩ := ih (i + 1) j h
        refine ⟨hj, by omega, by omega, ?_⟩
        intro m hm1 hm2
        by_cases hmi : m = i
        · subst hmi
          exact Bool.not_eq_false _ |>.mp hb
        · exact h3 m (by omega) hm2

theorem findFirstClear_none (bits : Nat → Bool) :
    ∀ (fuel i : Nat), findFirstClear bits i fuel = none →
      ∀ m, i ≤ m → m < i + fuel → bits m = true := by
  intro fuel
  induction fuel with
  | zero => intro i _ m h1 h2; omega
  | succ fuel ih =>
      intro i h m h1 h2
      rw [findFirstClear] at h
      by_cases hb : bits i = false
      · rw [if_pos hb] at h; exact absurd h (by simp)
      · rw [if_neg hb] at h
        by_cases hmi : m = i
        · subst hmi; exact Bool.not_eq_false _ |>.mp hb
        · exact ih (i + 1) h m (by omega) (by omega)

/-! ## Helper lemmas: directory entry counting -/

theorem countNonFreeBlock_replicate_free (n : Nat) :
    countNonFreeBlock (List.replicate n gosfsFreeEntry) = 0 := by
  induction n with
  | zero => rfl
  | succ n ih =>
      rw [List.replicate_succ]
      show entryCount gosfsFreeEntry + countNonFreeBlock (List.replicate n gosfsFreeEntry) = 0
      rw [ih]
      decide

theorem countNonFreeBlocks_replicate_none (n : Nat) :
    countNonFreeBlocks (List.replicate n none) = 0 := by
  induction n with
  | zero => rfl
  | succ n ih =>
      rw [List.replicate_succ]
      show countNonFreeBlocks (List.replicate n none)  = 0
      exact ih

theorem countNonFreeBlock_createFirst (ino : Nat) (name : String) :
    countNonFreeBlock (createFirstDirectoryBlock ino name) = 1 := by
  show entryCount { filename := name, dtype := GOSFS_DIRTYP_THIS, inode := ino } +
    countNonFreeBlock (List.replicate (GOSFS_DIR_ENTRIES_PER_BLOCK - 1) gosfsFreeEntry) = 1
  rw [countNonFreeBlock_replicate_free]
  rfl

theorem placeInBlock_count (e : GOSFS_Directory) (he : e.dtype ≠ GOSFS_DIRTYP_FREE) :
    ∀ (xs xs2 : List GOSFS_Directory), placeInBlock e xs = some xs2 →
      countNonFreeBlock xs2 = countNonFreeBlock xs + 1 := by
  intro xs
  induction xs with
  | nil => intro xs2 h; exact absurd h (by simp [placeInBlock])
  | cons x xs ih =>
      intro xs2 h
      rw [placeInBlock] at h
      by_cases hx : x.dtype = GOSFS_DIRTYP_FREE
      · rw [if_pos hx] at h
        injection h with h
        subst h
        show entryCount e + countNonFreeBlock xs = entryCount x + countNonFreeBlock xs + 1
        simp [entryCount, he, hx]
        omega
      · rw [if_neg hx] at h
        cases h2 : placeInBlock e xs with
        | none => rw [h2] at h; exact absurd h (by simp)
        | some xs3 =>
            rw [h2] at h
            injection h with h
            subst h
            show entryCount x + countNonFreeBlock xs3 = entryCount x + countNonFreeBlock xs + 1
            rw [ih xs3 h2]
            omega

theorem addLoop1_count (e : GOSFS_Directory) (he : e.dtype ≠ GOSFS_DIRTYP_FREE) :
    ∀ (bs bs2 : List (Option (List GOSFS_Directory))), addLoop1 e bs = some bs2 →
      countNonFreeBlocks bs2 = countNonFreeBlocks bs + 1 := by
  intro bs
  induction bs with
  | nil => intro bs2 h; exact absurd h (by simp [addLoop1])
  | cons ob bs ih =>
      intro bs2 h
      cases ob with
      | none =>
          rw [addLoop1] at h
          cases h2 : addLoop1 e bs with
          | none => rw [h2] at h; exact absurd h (by simp)
          | some bs3 =>
              rw [h2] at h
              injection h with h
              subst h
              show countNonFreeBlocks bs3 = countNonFreeBlocks bs + 1
              exact ih bs3 h2
      | some es =>
          rw [addLoop1] at h
          cases h2 : placeInBlock e es with
          | some es2 =>
              rw [h2] at h
              injection h with h
              subst h
              show countNonFreeBlock es2 + countNonFreeBlocks bs =
                countNonFreeBlock es + countNonFreeBlocks bs + 1
              rw [placeInBlock_count e he es es2 h2]
              omega
          | none =>
              rw [h2] at h
              cases h3 : addLoop1 e bs with
              | none => rw [h3] at h; exact absurd h (by simp)
              | some bs3 =>
                  rw [h3] at h
                  injection h with h
                  subst h
                  show countNonFreeBlock es + countNonFreeBlocks bs3 =
                    countNonFreeBlock es + countNonFreeBlocks bs + 1
                  rw [ih bs3 h3]
                  omega

theorem addLoop2_count (e : GOSFS_Directory) (he : e.dtype ≠ GOSFS_DIRTYP_FREE) :
    ∀ (bs bs2 : List (Option (List GOSFS_Directory))), addLoop2 e bs = some bs2 →
      countNonFreeBlocks bs2 = countNonFreeBlocks bs + 1 := by
  intro bs
  induction bs with
  | nil => intro bs2 h; exact absurd h (by simp [addLoop2])
  | cons ob bs ih =>
      intro bs2 h
      cases ob with
      | none =>
          rw [addLoop2] at h
          injection h with h
          subst h
          show countNonFreeBlock (gosfsNewDirBlockWith e) + countNonFreeBlocks bs =
            countNonFreeBlocks bs + 1
          show entryCount e + countNonFreeBlock (List.replicate (GOSFS_DIR_ENTRIES_PER_BLOCK - 1)
            gosfsFreeEntry) + countNonFreeBlocks bs = countNonFreeBlocks bs + 1
          rw [countNonFreeBlock_replicate_free]
          simp [entryCount, he]
          omega
      | some es =>
          rw [addLoop2] at h
          cases h2 : addLoop2 e bs with
          | none => rw [h2] at h; exact absurd h (by simp)
          | some bs3 =>
              rw [h2] at h
              injection h with h
              subst h
              show countNonFreeBlock es + countNonFreeBlocks bs3 =
                countNonFreeBlock es + countNonFreeBlocks bs + 1
              rw [ih bs3 h2]
              omega

theorem removeFromBlock_count (t : Nat) :
    ∀ (xs xs2 : List GOSFS_Directory), removeFromBlock t xs = some xs2 →
      (∀ x ∈ xs, x.inode = t → x.dtype ≠ GOSFS_DIRTYP_FREE) →
      countNonFreeBlock xs2 + 1 = countNonFreeBlock xs := by
  intro xs
  induction xs with
  | nil => intro xs2 h _; exact absurd h (by simp [removeFromBlock])
  | cons x xs ih =>
      intro xs2 h hall
      rw [removeFromBlock] at h
      by_cases hx : x.inode = t
      · rw [if_pos hx] at h
        injection h with h
        subst h
        have hxf : x.dtype ≠ GOSFS_DIRTYP_FREE := hall x (List.mem_cons_self x xs) hx
        show entryCount gosfsFreeEntry + countNonFreeBlock xs + 1 =
          entryCount x + countNonFreeBlock xs
        simp [entryCount, hxf, gosfsFreeEntry]
        omega
      · rw [if_neg hx] at h
        cases h2 : removeFromBlock t xs with
        | none => rw [h2] at h; exact absurd h (by simp)
        | some xs3 =>
            rw [h2] at h
            injection h with h
            subst h
            show entryCount x + countNonFreeBlock xs3 + 1 = entryCount x + countNonFreeBlock xs
            have := ih xs3 h2 (fun y hy => hall y (List.mem_cons_of_mem x hy))
            omega

theorem removeLoop_count (t : Nat) :
    ∀ (bs bs2 : List (Option (List GOSFS_Directory))), removeLoop t bs = some bs2 →
      (∀ ob ∈ bs, ∀ es, ob = some es → ∀ x ∈ es, x.inode = t → x.dtype ≠ GOSFS_DIRTYP_FREE) →
      countNonFreeBlocks bs2 + 1 = countNonFreeBlocks bs := by
  intro bs
  induction bs with
  | nil => intro bs2 h _; exact absurd h (by simp [removeLoop])
  | cons ob bs ih =>
      intro bs2 h hall
      cases ob with
      | none =>
          rw [removeLoop] at h
          cases h2 : removeLoop t bs with
          | none => rw [h2] at h; exact absurd h (by simp)
          | some bs3 =>
              rw [h2] at h
              injection h with h
              subst h
              show countNonFreeBlocks bs3 + 1 = countNonFreeBlocks bs
              exact ih bs3 h2 (fun ob2 hob2 => hall ob2 (List.mem_cons_of_mem none hob2))
      | some es =>
          rw [removeLoop] at h
          cases h2 : removeFromBlock t es with
          | some es2 =>
              rw [h2] at h
              injection h with h
              subst h
              show countNonFreeBlock es2 + countNonFreeBlocks bs + 1 =
                countNonFreeBlock es + countNonFreeBlocks bs
              have := removeFromBlock_count t es es2 h2
                (hall (some es) (List.mem_cons_self _ bs) es rfl)
              omega
          | none =>
              rw [h2] at h
              cases h3 : removeLoop t bs with
              | none => rw [h3] at h; exact absurd h (by simp)
              | some bs3 =>
                  rw [h3] at h
                  injection h with h
                  subst h
                  show countNonFreeBlock es + countNonFreeBlocks bs3 + 1 =
                    countNonFreeBlock es + countNonFreeBlocks bs
                  have := ih bs3 h3 (fun ob2 hob2 => hall ob2 (List.mem_cons_of_mem _ hob2))
                  omega

theorem blockEntriesOK_of_all (d : DirInode) (t : Nat)
    (h : d.blocks.all (blockEntriesOKb t) = true) :
    ∀ ob ∈ d.blocks, ∀ es, ob = some es → ∀ x ∈ es, x.inode = t →
      x.dtype ≠ GOSFS_DIRTYP_FREE := by
  intro ob hob es hes x hx hxi
  have h1 := List.all_eq_true.mp h ob hob
  subst hes
  unfold blockEntriesOKb at h1
  have h2 := List.all_eq_true.mp h1 x hx
  simp only [Bool.or_eq_true, Bool.not_eq_eq_eq_not, Bool.not_true, beq_eq_false_iff_ne,
    ne_eq] at h2
  rcases h2 with h2 | h2
  · exact absurd hxi h2
  · exact h2

/-! ## Helper lemmas: region selection of CreateFileBlock -/

theorem createFileBlockRegion_tooLarge (bn : Nat) (h : 1049608 < bn) :
    createFileBlockRegion bn = CFBRegion.tooLarge := by
  have h1 : ¬ (bn ≤ GOSFS_NUM_DIRECT_BLOCKS) := by
    show ¬ (bn ≤ 8)
    omega
  have h2 : ¬ (bn ≤ GOSFS_NUM_INDIRECT_PTR_PER_BLOCK * GOSFS_NUM_INDIRECT_BLOCKS +
      GOSFS_NUM_DIRECT_BLOCKS) := by
    show ¬ (bn ≤ 1032)
    omega
  have h3 : ¬ (bn ≤ GOSFS_NUM_INDIRECT_BLOCKS * GOSFS_NUM_PTRS_PER_BLOCK *
      GOSFS_NUM_PTRS_PER_BLOCK + GOSFS_NUM_INDIRECT_PTR_PER_BLOCK *
      GOSFS_NUM_INDIRECT_BLOCKS + GOSFS_NUM_DIRECT_BLOCKS) := by
    show ¬ (bn ≤ 1049608)
    omega
  unfold createFileBlockRegion
  rw [if_neg h1, if_neg h2, if_neg h3]

/-! ## Claim theorems -/

/-- C1: the code's single-indirect indexing agrees with the spec formulas
slot = D + (L-D)/P and offset = (L-D) % P at the region boundaries and
inside (with the actual fan-out P = GOSFS_NUM_PTRS_PER_BLOCK = 1024, not
512: ulong_t is 4 bytes on the 32-bit target), but for every L in the
double-indirect region the inode slot the code computes is
D + N_IND*P + R/(P*P) = 1032, out of bounds of the 10-entry blockList —
the spec formula D + N_IND + R/(P*P) gives slot 9.  Evaluated at the
first double-indirect logical block L = 1032. -/
theorem gosfs_block_indexer_double_slot_out_of_bounds :
    GOSFS_NUM_PTRS_PER_BLOCK = 1024 ∧
    GOSFS_NUM_BLOCK_PTRS = 10 ∧
    singleInodePtr 8 = specSingleSlot 8 ∧
    singleIndirectPtrOffset 8 = specSingleOffset 8 ∧
    singleInodePtr 520 = specSingleSlot 520 ∧
    singleIndirectPtrOffset 520 = specSingleOffset 520 ∧
    singleInodePtr 1031 = specSingleSlot 1031 ∧
    singleIndirectPtrOffset 1031 = specSingleOffset 1031 ∧
    doubleInodePtr 1032 = 1032 ∧
    GOSFS_NUM_BLOCK_PTRS ≤ doubleInodePtr 1032 ∧
    specDoubleTopSlot 1032 = 9 ∧
    doubleIndirectPtrOffset 1032 = specDoubleMidOffset 1032 ∧
    doubleIndirect2xPtrOffset 1032 = specDoubleLeafOffset 1032 := by
  decide

/-- C2 counterexample: the claimed addressable ceiling
D + I1_CAP + I2_CAP = 8 + 512 + 512*512 = 262664 is not where the code
fails — allocating the block at logical index 262664 (at the claimed
ceiling, so the claim says it must fail with FILE_TOO_LARGE) takes the
double-indirect branch and returns 0. -/
theorem createFileBlock_claimed_ceiling_not_enforced :
    (createFileBlock c2DemoState c2DemoBlockList (8 + 512 + 512 * 512)).rc = 0 ∧
    createFileBlockRegion (8 + 512 + 512 * 512 + 1) = CFBRegion.double := by
  decide

/-- C2 (amended): with the actual fan-out P = 1024, CreateFileBlock hits
its maximum-filesize branch exactly for logical indexes
L ≥ D + P + P*P = 1049608, returning -1 and storing no pointer in the
inode blockList; the last addressable index L = 1049607 (blockNum
1049608) selects the double-indirect region, not the error branch. -/
theorem createFileBlock_file_too_large :
    ∀ (st : GOSFS_State) (bl : List Nat) (L : Nat),
      GOSFS_NUM_DIRECT_BLOCKS + GOSFS_NUM_PTRS_PER_BLOCK +
          GOSFS_NUM_PTRS_PER_BLOCK * GOSFS_NUM_PTRS_PER_BLOCK ≤ L →
      (createFileBlock st bl L).rc = -1 ∧ (createFileBlock st bl L).blockList = bl ∧
        createFileBlockRegion (GOSFS_NUM_DIRECT_BLOCKS + GOSFS_NUM_PTRS_PER_BLOCK +
          GOSFS_NUM_PTRS_PER_BLOCK * GOSFS_NUM_PTRS_PER_BLOCK) = CFBRegion.double := by
  intro st bl L h
  have hconst : GOSFS_NUM_DIRECT_BLOCKS + GOSFS_NUM_PTRS_PER_BLOCK +
      GOSFS_NUM_PTRS_PER_BLOCK * GOSFS_NUM_PTRS_PER_BLOCK = 1049608 := rfl
  have hL : 1049608 ≤ L := hconst ▸ h
  have hreg : createFileBlockRegion (L + 1) = CFBRegion.tooLarge :=
    createFileBlockRegion_tooLarge (L + 1) (by omega)
  refine ⟨?_, ?_, by decide⟩
  · simp only [createFileBlock, hreg]
    split
    · rfl
    · rfl
  · simp only [createFileBlock, hreg]
    split
    · rfl
    · rfl

/-- C2 witness: at the first too-large index L = 1049608 the operation
returns -1 and the blockList is unchanged. -/
theorem createFileBlock_file_too_large_witness :
    (createFileBlock c2DemoState c2DemoBlockList 1049608).rc = -1 ∧
    (createFileBlock c2DemoState c2DemoBlockList 1049608).blockList = c2DemoBlockList :=
  have h := createFileBlock_file_too_large c2DemoState c2DemoBlockList 1049608 (by decide)
  ⟨h.1, h.2.1⟩

/-- C3: on a handle with cur_pos 0 and end_pos 10 over an allocated block,
read of 100 bytes returns the clamped 10 bytes but sets the cursor to
100 = cur_pos + requested count (gosfs.c line 1406), not cur_pos + 10 as
the claim states; the clamped byte count itself and the 0-at-EOF case
match the claim (shown on a block-spanning example and an EOF example). -/
theorem gosfs_read_cursor_advances_by_request :
    gosfsRead 0 10 100 = (10, 100) ∧
    (gosfsRead 0 10 100).2 ≠ 0 + (gosfsRead 0 10 100).1 ∧
    gosfsRead 0 5000 9000 = (5000, 9000) ∧
    gosfsRead 4000 20000 1000 = (1000, 5000) ∧
    gosfsRead 10 10 5 = (0, 10) := by
  decide

/-- C4: deleting an inode whose double-indirect chain is
top block 20 → middle block 21 → data leaf 22 (plus direct block 7)
clears the bits of 7, 20 and 21 but leaves the leaf block 22 marked
allocated, and leaves the inode record untouched — its flags stay USED,
so FindFreeInode never reports it free again. -/
theorem gosfs_delete_keeps_flags_and_leaks_leaf_blocks :
    (gosfsDeleteFreeBlocks c4DemoState c4DemoInode).1.bitSet 7 = false ∧
    (gosfsDeleteFreeBlocks c4DemoState c4DemoInode).1.bitSet 20 = false ∧
    (gosfsDeleteFreeBlocks c4DemoState c4DemoInode).1.bitSet 21 = false ∧
    (gosfsDeleteFreeBlocks c4DemoState c4DemoInode).1.bitSet 22 = true ∧
    (gosfsDeleteFreeBlocks c4DemoState c4DemoInode).2 = c4DemoInode ∧
    c4DemoInode.flags ≠ 0 ∧
    findFreeInodeIdx [(gosfsDeleteFreeBlocks c4DemoState c4DemoInode).2] = none := by
  have hdef : gosfsDeleteFreeBlocks c4DemoState c4DemoInode =
      (gosfsDeleteClear2xIndirect
          (gosfsDeleteClearIndirect
            (gosfsDeleteClearDirect c4DemoState c4DemoInode.blockList)
            c4DemoInode.blockList)
          c4DemoInode.blockList,
        c4DemoInode) := rfl
  have hst2 : gosfsDeleteClearIndirect
      (gosfsDeleteClearDirect c4DemoState c4DemoInode.blockList) c4DemoInode.blockList =
      gosfsDeleteClearDirect c4DemoState c4DemoInode.blockList := rfl
  have hrange1 : List.range GOSFS_NUM_2X_INDIRECT_BLOCKS = [0] := rfl
  have hgd : c4DemoInode.blockList.getD
      (GOSFS_NUM_DIRECT_BLOCKS + GOSFS_NUM_INDIRECT_BLOCKS + 0) 0 = 20 := rfl
  have hst3 : gosfsDeleteClear2xIndirect
      (gosfsDeleteClearDirect c4DemoState c4DemoInode.blockList) c4DemoInode.blockList =
      clearBit
        (gosfsDeleteClearChildren (gosfsDeleteClearDirect c4DemoState c4DemoInode.blockList) 20)
        20 := by
    unfold gosfsDeleteClear2xIndirect
    rw [hrange1, List.foldl_cons, List.foldl_nil]
    unfold clear2xIndirectBody
    rw [hgd]
    rw [if_pos (by decide : (20 : Nat) ≠ 0)]
  set st1 := gosfsDeleteClearDirect c4DemoState c4DemoInode.blockList with hst1
  have hblocks1 : st1.blocks = c4DemoState.blocks := by
    rw [hst1, clearDirect_eq]
    exact foldl_clearDirectBody_blocks c4DemoInode.blockList _ _
  have h7 : st1.bitSet 7 = false := by
    rw [hst1, clearDirect_eq]
    exact foldl_clearDirectBody_hit c4DemoInode.blockList 7 (by decide) _ _
      ⟨0, by decide, by decide⟩
  have h22 : st1.bitSet 22 = true := by
    rw [hst1, clearDirect_eq]
    rw [foldl_clearDirectBody_preserve c4DemoInode.blockList 22 _ _ (by decide)]
    decide
  have hb20 : ∀ e, st1.blocks 20 e ≠ 22 := by
    intro e
    rw [hblocks1]
    by_cases he : e = 0 <;> simp [c4DemoState, he]
  have hb200 : st1.blocks 20 0 = 21 := by rw [hblocks1]; decide
  have hch7 : (gosfsDeleteClearChildren st1 20).bitSet 7 = false :=
    clearChildren_false st1 20 7 h7
  have hch21 : (gosfsDeleteClearChildren st1 20).bitSet 21 = false :=
    clearChildren_hit st1 20 21 (by decide) 0 (by decide) hb200
  have hch22 : (gosfsDeleteClearChildren st1 20).bitSet 22 = true := by
    rw [clearChildren_preserve st1 20 22 hb20]
    exact h22
  rw [hdef, hst2, hst3]
  refine ⟨?_, ?_, ?_, ?_, rfl, by decide, by decide⟩
  · rw [clearBit_bitSet_ne (gosfsDeleteClearChildren st1 20) 20 7 (by decide)]
    exact hch7
  · exact clearBit_bitSet_self (gosfsDeleteClearChildren st1 20) 20
  · rw [clearBit_bitSet_ne (gosfsDeleteClearChildren st1 20) 20 21 (by decide)]
    exact hch21
  · rw [clearBit_bitSet_ne (gosfsDeleteClearChildren st1 20) 20 22 (by decide)]
    exact hch22

theorem ulongOfInt_ofNat (j : Nat) (h : j < 2 ^ 32) : ulongOfInt (j : Int) = j := by
  unfold ulongOfInt
  rw [Int.emod_eq_of_lt (by omega) (by exact_mod_cast h)]
  exact Int.toNat_ofNat j

/-- The regime in which GetNewFreeBlock behaves as the spec's
allocate_block: the first clear bitmap bit sits at a positive index
(index 0 is always taken by the superblock region on a formatted
volume).  Then the call returns the lowest clear bit j, with block j
zeroed through the cache and exactly bit j newly set. -/
theorem getNewFreeBlock_success_spec :
    ∀ (st : GOSFS_State) (j : Nat), findFirstClear st.bitSet 0 st.size = some j →
      0 < j → j < 2 ^ 32 →
      GetNewFreeBlock st = (j, setBit (zeroBlock st j) j) ∧
      st.bitSet j = false ∧ j < st.size ∧ (∀ m, m < j → st.bitSet m = true) := by
  intro st j hF hj hj32
  obtain ⟨hbj, _, hjlt, hmin⟩ := findFirstClear_some st.bitSet st.size 0 j hF
  have hm : Find_First_Free_Bit st.bitSet st.size = (j : Int) := by
    unfold Find_First_Free_Bit
    rw [hF]
  have hu : ulongOfInt ((j : Nat) : Int) = j := ulongOfInt_ofNat j hj32
  refine ⟨?_, hbj, by omega, fun m hm2 => hmin m (by omega) hm2⟩
  unfold GetNewFreeBlock
  rw [hm, hu, if_neg (by omega : ¬ (j ≤ 0))]

/-- C5: the out-of-space detection of GetNewFreeBlock is dead.  On a
bitmap whose every in-range bit is set, the -1 no-free-bit result of the
scan wraps through the ulong_t local `freeBlock` to 4294967295, which
passes the unsigned `freeBlock <= 0` guard; the call then zeroes block
4294967295, sets bitmap bit 4294967295 and returns 4294967295 — no
out-of-space failure, and the bitmap is changed.  The success half of
the claim does hold: on a bitmap with lowest clear bit 3 the call
returns 3, zeroes block 3 and sets exactly bit 3 (in general,
getNewFreeBlock_success_spec). -/
theorem getNewFreeBlock_no_free_bit_not_caught :
    (List.range c5FullState.size).all c5FullState.bitSet = true ∧
    (GetNewFreeBlock c5FullState).1 = 4294967295 ∧
    c5FullState.bitSet 4294967295 = false ∧
    (GetNewFreeBlock c5FullState).2.bitSet 4294967295 = true ∧
    (GetNewFreeBlock c5FullState).2.blocks 4294967295 0 = 0 ∧
    (GetNewFreeBlock c5DemoState).1 = 3 ∧
    c5DemoState.bitSet 3 = false ∧
    c5DemoState.bitSet 2 = true ∧
    (GetNewFreeBlock c5DemoState).2.bitSet 3 = true ∧
    (GetNewFreeBlock c5DemoState).2.blocks 3 5 = 0 ∧
    (GetNewFreeBlock c5DemoState).2.bitSet 2 = c5DemoState.bitSet 2 := by
  decide

/-- C6: the directory size invariant size = number of non-FREE entries
holds for the root directory as formatted; a successful
AddDirectoryEntryToInode of a non-FREE entry increments both by exactly
one; RemoveDirEntryFromInode on a directory satisfying the invariant,
when the target inode occurs only in non-FREE entries and an entry is
found, replaces it by the FREE record and decrements both by exactly one;
the directory created by GOSFS_Create_Directory has size 1 with its THIS
entry the only non-FREE record. -/
theorem gosfs_directory_size_invariant :
    (gosfsFormatRootInode.size = countNonFreeInode gosfsFormatRootInode) ∧
    (∀ (d : DirInode) (e : GOSFS_Directory) (d2 : DirInode),
      e.dtype ≠ GOSFS_DIRTYP_FREE → addDirectoryEntryToInode d e = some d2 →
      d2.size = d.size + 1 ∧ countNonFreeInode d2 = countNonFreeInode d + 1) ∧
    (∀ (d : DirInode) (t : Nat) (bs2 : List (Option (List GOSFS_Directory))),
      d.size = countNonFreeInode d →
      d.blocks.all (blockEntriesOKb t) = true →
      removeLoop t d.blocks = some bs2 →
      removeDirEntryFromInode d t = { size := d.size - 1, blocks := bs2 } ∧
        countNonFreeBlocks bs2 + 1 = countNonFreeInode d) ∧
    (∀ (ino : Nat) (name : String),
      (gosfsMkdirNewInode ino name).size = 1 ∧
      countNonFreeInode (gosfsMkdirNewInode ino name) = 1 ∧
      (createFirstDirectoryBlock ino name).head? =
        some { filename := name, dtype := GOSFS_DIRTYP_THIS, inode := ino }) := by
  refine ⟨?_, ?_, ?_, ?_⟩
  · decide
  · intro d e d2 he h
    unfold addDirectoryEntryToInode at h
    cases h1 : addLoop1 e d.blocks with
    | some bs2 =>
        rw [h1] at h
        injection h with h
        subst h
        exact ⟨rfl, addLoop1_count e he d.blocks bs2 h1⟩
    | none =>
        rw [h1] at h
        cases h2 : addLoop2 e d.blocks with
        | none => rw [h2] at h; exact absurd h (by simp)
        | some bs2 =>
            rw [h2] at h
            injection h with h
            subst h
            exact ⟨rfl, addLoop2_count e he d.blocks bs2 h2⟩
  · intro d t bs2 hInv hallb hFound
    have hall := blockEntriesOK_of_all d t hallb
    have hc := removeLoop_count t d.blocks bs2 hFound hall
    have hpos : d.size ≠ 0 := by
      unfold countNonFreeInode at hInv
      omega
    constructor
    · unfold removeDirEntryFromInode
      rw [hFound, if_neg hpos]
    · exact hc
  · intro ino name
    refine ⟨rfl, ?_, rfl⟩
    show countNonFreeBlock (createFirstDirectoryBlock ino name) +
      countNonFreeBlocks (List.replicate (GOSFS_NUM_DIRECT_BLOCKS - 1) none) = 1
    rw [countNonFreeBlock_createFirst, countNonFreeBlocks_replicate_none]

/-- C6 witness: inserting the REGULAR entry "a" (inode 1) into the
freshly formatted root gives size 2 = non-FREE count 2; removing inode 1
again restores size 1 and count 1 (the original root block contents). -/
theorem gosfs_directory_size_invariant_witness :
    (addDirectoryEntryToInode gosfsFormatRootInode c6DemoEntry = some c6DemoDirAfter ∧
      c6DemoDirAfter.size = gosfsFormatRootInode.size + 1 ∧
      countNonFreeInode c6DemoDirAfter = countNonFreeInode gosfsFormatRootInode + 1) ∧
    (removeDirEntryFromInode c6DemoDirAfter 1 =
        { size := c6DemoDirAfter.size - 1, blocks := gosfsFormatRootInode.blocks } ∧
      countNonFreeBlocks gosfsFormatRootInode.blocks + 1 = countNonFreeInode c6DemoDirAfter) := by
  have h2 := gosfs_directory_size_invariant.2.1 gosfsFormatRootInode c6DemoEntry c6DemoDirAfter
    (by decide) (by decide)
  have h3 := gosfs_directory_size_invariant.2.2.1 c6DemoDirAfter 1 gosfsFormatRootInode.blocks
    (by decide) (by decide) (by decide)
  exact ⟨⟨by decide, h2.1, h2.2⟩, h3⟩

/-- C7: GOSFS_Create_Directory looks the target name up in the parent
(FindInodeInDirectory finds "a" as inode 1) but ignores the result and
inserts a second REGULAR entry named "a" anyway, leaving the parent with
two non-FREE entries of the same filename. -/
theorem gosfs_mkdir_inserts_duplicate_name :
    findInodeInDirectory c7DemoParent "a" = some 1 ∧
    countNamed c7DemoParent "a" = 1 ∧
    gosfsCreateDirectoryAddEntry c7DemoParent "a" 2 = some c7DemoParentAfter ∧
    countNamed c7DemoParentAfter "a" = 2 := by
  decide

/-- C8: on a directory with k = 2 non-FREE entries (THIS then one
REGULAR), the first read_entry call returns the second stored entry —
not the first — because the code reads index filePos + 1; the second
call reads index 2, one past the snapshot buffer; the third call reports
no-more-entries. -/
theorem gosfs_read_entry_skips_first_and_overruns :
    gosfsOpenDirectorySnapshot c8DemoDir = [c8DemoThis, c8DemoReg] ∧
    c8DemoDir.size = 2 ∧
    gosfsReadEntry (gosfsOpenDirectorySnapshot c8DemoDir) 0 2 = some (some c8DemoReg, 1) ∧
    c8DemoReg ≠ c8DemoThis ∧
    gosfsReadEntry (gosfsOpenDirectorySnapshot c8DemoDir) 1 2 = some (none, 2) ∧
    gosfsReadEntry (gosfsOpenDirectorySnapshot c8DemoDir) 2 2 = none := by
  decide

/-- C9: when the block-0 magic check fails, GOSFS_Mount returns -1 with
the buffer of block 0 still pinned — one Get_FS_Buffer and no
Release_FS_Buffer — violating the paired get/release contract. -/
theorem gosfs_mount_magic_mismatch_leaks_buffer :
    gosfsMountEvents false 5 = ([BufEvent.get 0], -1) ∧
    ¬ bufBalanced [BufEvent.get 0] := by
  refine ⟨rfl, fun h => ?_⟩
  have h0 := h 0
  revert h0
  decide

/-- C10: GOSFS_Seek always returns 0 and sets the cursor to the requested
position — including positions beyond end-of-file — and changes nothing
else of the handle (endPos and mode are untouched; the function touches
no inode, bitmap or disk state at all). -/
theorem gosfs_seek_sets_position_only :
    ∀ (f : File) (pos : Nat),
      GOSFS_Seek f pos = (0, { filePos := pos, endPos := f.endPos, mode := f.mode }) := by
  intro f pos
  rfl

end GOSFS
